import Mathlib

/-!
Verification of the go-msvc/crud generic CRUD dispatch core.

The development shallowly embeds the two Go source files of the repository
(the `Server` variant with custom operations, and the older `Crud` variant
holding only stores).  Item and request payloads are kept abstract behind a
type parameter `D`; everything a Go `reflect.Type` or an interface assertion
decides about a concrete shape (JSON decoding, the optional `Validate`
capability on the pointer form and on the value form) is carried as data on
the store / request-type descriptor, mirroring how the Go code derives all
of it from `s.Type()` resp. `operInfo.requestType`.

External collaborators (the `store` package, `encoding/json`, `net/http`,
`time.Format`) are modelled as small deterministic functions, each marked in
its doc comment.  `panic` in Go is modelled as `Except.error`.
-/

/-- An inbound HTTP request as the handlers see it: method, URL path and
request body. -/
structure Request where
  method : String
  path : String
  body : String
deriving Repr, DecidableEq

/-- The response written to the `http.ResponseWriter`: status code, response
headers in the order they were set, and the body. -/
structure HttpResponse where
  status : Nat
  headers : List (String × String)
  body : String
deriving Repr, DecidableEq

/-- Modelled from the spec: Go `http.Error(res, msg, code)` writes the
status code, the plain-text content-type headers and the message followed by
a newline. -/
def httpError (msg : String) (code : Nat) : HttpResponse :=
  { status := code
    headers := [("Content-Type", "text/plain; charset=utf-8"),
                ("X-Content-Type-Options", "nosniff")]
    body := msg ++ "\n" }

/-- First value set for a header key (response header lookup). -/
def headerGet (r : HttpResponse) (k : String) : Option String :=
  List.lookup k r.headers

/-- Modelled from the spec: `errors.Wrapf(err, msg)` of the go-msvc errors
package produces a message wrapping the cause. -/
def errWrap (msg err : String) : String :=
  msg ++ ": " ++ err

/-- A calendar timestamp with its numeric UTC offset in minutes, the data
`time.Time.Format` reads for the layout used by the server. -/
structure GoTime where
  year : Nat
  month : Nat
  day : Nat
  hour : Nat
  minute : Nat
  second : Nat
  offMinutes : Int
deriving Repr, DecidableEq

/-- Two-digit zero-padded decimal digits of `n` (for `n < 100` this is
exactly Go's zero-padded rendering). -/
def pad2c (n : Nat) : List Char :=
  [Nat.digitChar (n / 10 % 10), Nat.digitChar (n % 10)]

/-- Four-digit zero-padded decimal digits of `n` (for `n < 10000` this is
exactly Go's zero-padded rendering). -/
def pad4c (n : Nat) : List Char :=
  [Nat.digitChar (n / 1000 % 10), Nat.digitChar (n / 100 % 10),
   Nat.digitChar (n / 10 % 10), Nat.digitChar (n % 10)]

/-- Modelled from the spec: Go `t.Format("2006-01-02 15:04:05-0700")`
(the `timestampFormat` constant) for calendar timestamps whose components
are in their usual ranges. -/
def formatTimestamp (t : GoTime) : String :=
  String.mk (pad4c t.year ++ '-' :: pad2c t.month ++ '-' :: pad2c t.day ++
    ' ' :: pad2c t.hour ++ ':' :: pad2c t.minute ++ ':' :: pad2c t.second ++
    (if t.offMinutes < 0 then '-' else '+') ::
      (pad2c (t.offMinutes.natAbs / 60) ++ pad2c (t.offMinutes.natAbs % 60)))

/-- The components of a timestamp lie in the ranges Go's normalized
`time.Time` guarantees, so that the zero-padded model coincides with Go. -/
def GoTime.inRange (t : GoTime) : Prop :=
  t.year < 10000 ∧ t.month < 100 ∧ t.day < 100 ∧ t.hour < 100 ∧
    t.minute < 100 ∧ t.second < 100 ∧ t.offMinutes.natAbs < 6000

instance (t : GoTime) : Decidable t.inRange := by
  unfold GoTime.inRange; infer_instance

/-- The string has shape `YYYY-MM-DD HH:MM:SS±ZZZZ`: 24 characters, digits
in the date, time and zone positions, the separators, and a numeric-offset
sign. -/
def isTimestampFormat (s : String) : Bool :=
  match s.data with
  | [y1, y2, y3, y4, c1, m1, m2, c2, d1, d2, c3, h1, h2, c4, n1, n2, c5,
     s1, s2, sg, z1, z2, z3, z4] =>
    y1.isDigit && y2.isDigit && y3.isDigit && y4.isDigit && (c1 == '-') &&
    m1.isDigit && m2.isDigit && (c2 == '-') && d1.isDigit && d2.isDigit &&
    (c3 == ' ') && h1.isDigit && h2.isDigit && (c4 == ':') &&
    n1.isDigit && n2.isDigit && (c5 == ':') && s1.isDigit && s2.isDigit &&
    (sg == '+' || sg == '-') && z1.isDigit && z2.isDigit && z3.isDigit &&
    z4.isDigit
  | _ => false

/-- Modelled from the spec: the item envelope returned by the storage
collaborator on create — `store.ItemInfo` with identifier, owning-user
identifier, creation timestamp and revision counter. -/
structure ItemInfo where
  id : String
  userID : String
  timestamp : GoTime
  rev : Int
deriving Repr, DecidableEq

/-- Modelled from the spec: `json.Marshal(info)`, the JSON encoding of the
item envelope. -/
def marshalInfo (info : ItemInfo) : String :=
  "\x7b\"id\":\"" ++ info.id ++ "\",\"user\":\"" ++ info.userID ++
    "\",\"rev\":" ++ toString info.rev ++ ",\"ts\":\"" ++
    formatTimestamp info.timestamp ++ "\"\x7d"

/-- A registered store, `store.IStore`, seen through everything the Go code
asks of it.  `decode` models `reflect.New(s.Type())` followed by
`json.Decode` into that fresh value; `validatePtr` / `validateVal` model the
`IWithValidate` interface assertion on the decoded item's pointer form resp.
value form (present iff that form implements the interface, and returning
`some msg` when `Validate()` returns an error); `add` and `get` are the
storage collaborator calls; `marshalItem` models `json.Marshal` of an item
value. -/
structure IStore (D : Type) where
  name : String
  decode : String → Except String D
  validatePtr : Option (D → Option String)
  validateVal : Option (D → Option String)
  add : D → Except String ItemInfo
  get : String → Except String (D × ItemInfo)
  marshalItem : D → String

/-- Result of an optional validation capability: `none` when the capability
is absent or the check passes, `some e` when it rejects with error `e`. -/
def checkOpt {D : Type} (v : Option (D → Option String)) (item : D) : Option String :=
  match v with
  | some f => f item
  | none => none

/-- The calls a store dispatcher makes on collaborators, in order: the two
optional validation-capability invocations and the storage calls. -/
inductive StoreEvent (D : Type) where
  | validatePtr (item : D)
  | validateVal (item : D)
  | add (item : D)
  | get (id : String)
deriving Repr, DecidableEq

/-- Only the storage-collaborator calls of a trace (`add` / `get`),
with the validation-capability probes dropped. -/
def storageCalls {D : Type} (tr : List (StoreEvent D)) : List (StoreEvent D) :=
  tr.filter fun e =>
    match e with
    | StoreEvent.add _ => true
    | StoreEvent.get _ => true
    | _ => false

/-- Everything before the first occurrence of `sep`, and everything after
it; `none` when `sep` does not occur. -/
def breakChar (sep : Char) : List Char → Option (List Char × List Char)
  | [] => none
  | c :: cs =>
    if c = sep then some ([], cs)
    else
      match breakChar sep cs with
      | none => none
      | some (l, r) => some (c :: l, r)

/-- Go `strings.SplitN(s, sep, n)` for a one-character separator: at most
`n` substrings, the last holding the unsplit remainder. -/
def goSplitN (sep : Char) : List Char → Nat → List (List Char)
  | _, 0 => []
  | cs, 1 => [cs]
  | cs, n + 2 =>
    match breakChar sep cs with
    | none => [cs]
    | some (l, r) => l :: goSplitN sep r (n + 1)

/-- A value produced by invoking a method through `reflect.Value.Call`:
`nilv` is an untyped nil output, `errv msg` an output holding an `error`
with message `msg`, and `datav json` a data output whose `json.Marshal`
rendering is `json`. -/
inductive GoVal where
  | nilv
  | errv (msg : String)
  | datav (json : String)
deriving Repr, DecidableEq

/-- Modelled from the spec: `json.Marshal` of a reflected output value. -/
def goValJson : GoVal → String
  | GoVal.nilv => "null"
  | GoVal.errv _ => "\x7b\x7d"
  | GoVal.datav j => j

/-- A Go `reflect.Type` for a request shape, together with everything the
dispatcher derives from it: its name, the result of
`store.ValidateUserType` on it (modelled from the spec: the external check
that the shape is well-formed and introspectable; `none` = valid), JSON
decoding into a fresh value of the shape, and the optional `IWithValidate`
capability on the pointer form and on the value form. -/
structure GoType (D : Type) where
  name : String
  userTypeErr : Option String
  decode : String → Except String D
  validatePtr : Option (D → Option String)
  validateVal : Option (D → Option String)

/-- A custom operation (`IOper`) as registration sees it through
reflection: the dynamic type name (`%T`), whether a `Process` method
exists, that method's `NumIn()` (receiver included), its second input type
`In(1)`, and the behaviour of `processMethod.Call` on the one real
argument (the list of output values; its length is the method's
`NumOut()`). -/
structure IOper (D : Type) where
  typeName : String
  hasProcess : Bool
  numIn : Nat
  requestType : GoType D
  processCall : D → List GoVal

/-- The `operInfo` record stored in the registry: the operation (kept here
as its type name, all the dispatcher uses it for), the bound
`processMethod` and the request type. -/
structure OperStored (D : Type) where
  typeName : String
  processCall : D → List GoVal
  requestType : GoType D

/-- The collaborator calls the operation dispatcher makes, in order. -/
inductive OperEvent (D : Type) where
  | validatePtr (rd : D)
  | validateVal (rd : D)
  | process (rd : D)
deriving Repr, DecidableEq

/-- Number of `Process` invocations in a trace. -/
def countProcess {D : Type} (tr : List (OperEvent D)) : Nat :=
  tr.countP fun e =>
    match e with
    | OperEvent.process _ => true
    | _ => false

/-- Outcome of running a handler: a written HTTP response, or a Go `panic`
escaping the handler. -/
inductive HandlerResult where
  | response (r : HttpResponse)
  | panicked (msg : String)
deriving Repr, DecidableEq

/-- Go `map[string]operInfo` assignment `m[k] = v` on an association-list
representation: replaces the binding of `k` when present, appends
otherwise. -/
def mapSet {D : Type} : List (String × OperStored D) → String → OperStored D →
    List (String × OperStored D)
  | [], k, v => [(k, v)]
  | (k', v') :: rest, k, v =>
    if k' = k then (k, v) :: rest else (k', v') :: mapSet rest k v

/-- The `Server` of the main source file: registered stores and the
path-keyed operation registry. -/
structure Server (D : Type) where
  stores : List (IStore D)
  opers : List (String × OperStored D)

/-- `New()`: a server with no stores and an empty operation map. -/
def Server.New {D : Type} : Server D :=
  { stores := [], opers := [] }

/-- `Server.With`: appends a store (no uniqueness check on names). -/
def Server.With {D : Type} (server : Server D) (s : IStore D) : Server D :=
  { server with stores := server.stores ++ [s] }

/-- `Server.WithOper`: validates through reflection that the operation has
a `Process` method with one input (`NumIn() == 2`, receiver included) and a
valid request type, then binds it under `path` in the operation map.  A
failed check `panic`s in Go, modelled as `Except.error`.  Note: the output
arity (`NumOut`) of `Process` is not inspected here. -/
def Server.WithOper {D : Type} (server : Server D) (path : String) (oper : IOper D) :
    Except String (Server D) :=
  if oper.hasProcess = false then
    Except.error (oper.typeName ++ " does not have Process(request)->(response,error) method")
  else if oper.numIn ≠ 2 then
    Except.error (oper.typeName ++ ".Process() does not have prototype Process(request)->(response,error)")
  else
    match oper.requestType.userTypeErr with
    | some e =>
      Except.error (errWrap ("invalid oper request " ++ oper.requestType.name ++
        " used as arg " ++ oper.typeName ++ ".Process(<request>)") e)
    | none =>
      Except.ok { server with
        opers := mapSet server.opers path
          ⟨oper.typeName, oper.processCall, oper.requestType⟩ }

/-- Binding looked up in the operation registry for a path. -/
def lookupOper {D : Type} (server : Server D) (path : String) : Option (OperStored D) :=
  List.lookup path server.opers

/-- Success response of the create flow: the envelope mirrored into the
four `Item-*` headers plus `Content-Type`, the JSON-encoded envelope as
body, and the implicit 200 of `res.Write`. -/
def postSuccess (info : ItemInfo) : HttpResponse :=
  { status := 200
    headers := [("Item-ID", info.id), ("Item-User-ID", info.userID),
                ("Item-Timestamp", formatTimestamp info.timestamp),
                ("Item-Revision", toString info.rev),
                ("Content-Type", "application/json")]
    body := marshalInfo info }

/-- Tail of `Server.storePost` from the `s.Add(itemData)` call on. -/
def Server.storePostAdd {D : Type} (s : IStore D) (item : D)
    (tr : List (StoreEvent D)) : HttpResponse × List (StoreEvent D) :=
  match s.add item with
  | Except.error e =>
    (httpError (errWrap "failed to add" e) 500, tr ++ [StoreEvent.add item])
  | Except.ok info => (postSuccess info, tr ++ [StoreEvent.add item])

/-- Tail of `Server.storePost` from the value-form (`const receiver`)
validation-capability check on. -/
def Server.storePostVal {D : Type} (s : IStore D) (item : D)
    (tr : List (StoreEvent D)) : HttpResponse × List (StoreEvent D) :=
  match s.validateVal with
  | some g =>
    match g item with
    | some e =>
      (httpError (errWrap ("invalid " ++ s.name) e) 400,
       tr ++ [StoreEvent.validateVal item])
    | none => Server.storePostAdd s item (tr ++ [StoreEvent.validateVal item])
  | none => Server.storePostAdd s item tr

/-- The create flow of the main source file, `Server.storePost`: exact-path
check, JSON decode into a fresh item, pointer-form validation, value-form
validation, `Add`, then the envelope response.  The returned trace records
the collaborator calls in order. -/
def Server.storePost {D : Type} (server : Server D) (s : IStore D) (req : Request) :
    HttpResponse × List (StoreEvent D) :=
  if req.path ≠ "/" ++ s.name then
    (httpError ("Expecting POST /" ++ s.name) 400, [])
  else
    match s.decode req.body with
    | Except.error _ =>
      (httpError ("Cannot parse body as JSON " ++ s.name) 400, [])
    | Except.ok item =>
      match s.validatePtr with
      | some f =>
        match f item with
        | some e =>
          (httpError (errWrap ("invalid " ++ s.name) e) 400,
           [StoreEvent.validatePtr item])
        | none => Server.storePostVal s item [StoreEvent.validatePtr item]
      | none => Server.storePostVal s item []

/-- The read flow, `Server.storeGet`: split the path into at most 4 pieces
on `/`, require exactly 3 with a non-empty id, delegate to `Get`, and
mirror timestamp and revision into headers on success. -/
def Server.storeGet {D : Type} (server : Server D) (s : IStore D) (req : Request) :
    HttpResponse × List (StoreEvent D) :=
  match (goSplitN '/' req.path.data 4).map String.mk with
  | [_, _, id] =>
    if id.length = 0 then
      (httpError ("Expecting GET /" ++ s.name ++ "/<id>") 404, [])
    else
      match s.get id with
      | Except.error _ =>
        (httpError ("Expecting GET /" ++ s.name ++ "/<id>") 404,
         [StoreEvent.get id])
      | Except.ok (v, info) =>
        ({ status := 200
           headers := [("Item-Timestamp", formatTimestamp info.timestamp),
                       ("Item-Revision", toString info.rev),
                       ("Content-Type", "application/json")]
           body := s.marshalItem v },
         [StoreEvent.get id])
  | _ => (httpError ("Expecting GET /" ++ s.name ++ "/<id>") 404, [])

/-- The per-store handler `Server.storeHandler` (with the `postFunc` /
`getFunc` parameters instantiated to `storePost` / `storeGet`, as
`AddToMux` does): method-based branching, any method other than POST and
GET falling through to the fixed CRUD 405. -/
def Server.storeHandler {D : Type} (server : Server D) (s : IStore D) (req : Request) :
    HttpResponse × List (StoreEvent D) :=
  if req.method = "POST" then Server.storePost server s req
  else if req.method = "GET" then Server.storeGet server s req
  else
    (httpError "CRUD: Create with POST, Read with GET, Update with PUT, Delete with DELETE." 405,
     [])

/-- Tail of `Server.operPost` from the `processMethod.Call` on: the output
arity gate (500 on anything but two outputs), the non-nil failure check
(`panic` when the second output is non-nil but not an `error`), the 400 on
a non-nil failure, and the JSON-encoded response on success. -/
def Server.operPostCall {D : Type} (o : OperStored D) (rd : D)
    (tr : List (OperEvent D)) : HandlerResult × List (OperEvent D) :=
  let out := o.processCall rd
  let tr1 := tr ++ [OperEvent.process rd]
  match out with
  | [o0, o1] =>
    match o1 with
    | GoVal.nilv =>
      (HandlerResult.response
        { status := 200
          headers := [("Content-Type", "application/json")]
          body := goValJson o0 },
       tr1)
    | GoVal.errv m =>
      (HandlerResult.response (httpError ("failed: " ++ m) 400), tr1)
    | GoVal.datav _ =>
      (HandlerResult.panicked "second output is not error", tr1)
  | _ =>
    (HandlerResult.response
      (httpError (o.typeName ++ ".Process() returned " ++ toString out.length ++
        " instead of 2 values") 500),
     tr1)

/-- Tail of `Server.operPost` from the value-form validation check on. -/
def Server.operPostVal {D : Type} (o : OperStored D) (rd : D)
    (tr : List (OperEvent D)) : HandlerResult × List (OperEvent D) :=
  match o.requestType.validateVal with
  | some g =>
    match g rd with
    | some e =>
      (HandlerResult.response
        (httpError (errWrap ("invalid " ++ o.requestType.name) e) 400),
       tr ++ [OperEvent.validateVal rd])
    | none => Server.operPostCall o rd (tr ++ [OperEvent.validateVal rd])
  | none => Server.operPostCall o rd tr

/-- The operation dispatcher `Server.operPost`: JSON decode into a fresh
value of the declared request shape, pointer-form validation, value-form
validation, then the `Process` invocation. -/
def Server.operPost {D : Type} (o : OperStored D) (req : Request) :
    HandlerResult × List (OperEvent D) :=
  match o.requestType.decode req.body with
  | Except.error _ =>
    (HandlerResult.response
      (httpError ("Cannot parse body as JSON " ++ o.requestType.name) 400), [])
  | Except.ok rd =>
    match o.requestType.validatePtr with
    | some f =>
      match f rd with
      | some e =>
        (HandlerResult.response
          (httpError (errWrap ("invalid " ++ o.requestType.name) e) 400),
         [OperEvent.validatePtr rd])
      | none => Server.operPostVal o rd [OperEvent.validatePtr rd]
    | none => Server.operPostVal o rd []

/-- The per-operation handler `Server.operHandler` (with `postFunc`
instantiated to `operPost`, as `AddToMux` does): POST only, any other
method answered with the "accepts only POST" 405. -/
def Server.operHandler {D : Type} (o : OperStored D) (req : Request) :
    HandlerResult × List (OperEvent D) :=
  if req.method = "POST" then Server.operPost o req
  else
    (HandlerResult.response (httpError (req.path ++ " accepts only POST") 405), [])

/-- The `Crud` registry of the second source file: stores only. -/
structure Crud (D : Type) where
  stores : List (IStore D)

/-- The second file's `New()`. -/
def Crud.New {D : Type} : Crud D :=
  { stores := [] }

/-- `Crud.With`: appends a store (no uniqueness check on names). -/
def Crud.With {D : Type} (c : Crud D) (s : IStore D) : Crud D :=
  { c with stores := c.stores ++ [s] }

/-- Tail of `Crud.post` from the `s.Add(itemData)` call on (the second
file duplicates these lines of `Server.storePost`). -/
def Crud.postAdd {D : Type} (s : IStore D) (item : D)
    (tr : List (StoreEvent D)) : HttpResponse × List (StoreEvent D) :=
  match s.add item with
  | Except.error e =>
    (httpError (errWrap "failed to add" e) 500, tr ++ [StoreEvent.add item])
  | Except.ok info => (postSuccess info, tr ++ [StoreEvent.add item])

/-- The second file's create flow, `Crud.post`: exact-path check, JSON
decode, then a single validation-capability check — on the value form
only — before `Add`.  Unlike `Server.storePost`, the pointer form of the
decoded item is never probed for the capability. -/
def Crud.post {D : Type} (c : Crud D) (s : IStore D) (req : Request) :
    HttpResponse × List (StoreEvent D) :=
  if req.path ≠ "/" ++ s.name then
    (httpError ("Expecting POST /" ++ s.name) 400, [])
  else
    match s.decode req.body with
    | Except.error _ =>
      (httpError ("Cannot parse body as JSON " ++ s.name) 400, [])
    | Except.ok item =>
      match s.validateVal with
      | some g =>
        match g item with
        | some e =>
          (httpError (errWrap ("invalid " ++ s.name) e) 400,
           [StoreEvent.validateVal item])
        | none => Crud.postAdd s item [StoreEvent.validateVal item]
      | none => Crud.postAdd s item []

/-- The path condition of the read flow as the spec states it: the path
splits (SplitN on `/`, limit 4) into exactly three segments with a
non-empty third segment, which is the id. -/
def readPathId (path : String) : Option String :=
  match (goSplitN '/' path.data 4).map String.mk with
  | [_, _, id] => if id.length = 0 then none else some id
  | _ => none

/-- The claim-side failure condition of the read flow: the path does not
have the three-segment shape with a non-empty id, or the storage
collaborator's `get` fails on that id. -/
def storeGetFails {D : Type} (s : IStore D) (path : String) : Prop :=
  match readPathId path with
  | none => True
  | some id => ∃ e, s.get id = Except.error e

/-- An operation passes every check `Server.WithOper` performs. -/
def validOper {D : Type} (oper : IOper D) : Prop :=
  oper.hasProcess = true ∧ oper.numIn = 2 ∧ oper.requestType.userTypeErr = none

/-- The trace entry the pointer-form validation probe of `Server.storePost`
leaves when the capability is present. -/
def ptrProbeTrace {D : Type} (s : IStore D) (item : D) : List (StoreEvent D) :=
  match s.validatePtr with
  | some _ => [StoreEvent.validatePtr item]
  | none => []

theorem digitChar_mod_isDigit (n : Nat) : (Nat.digitChar (n % 10)).isDigit = true := by
  have h : n % 10 < 10 := Nat.mod_lt _ (by norm_num)
  have hall : ∀ m, m < 10 → (Nat.digitChar m).isDigit = true := by decide
  exact hall _ h

theorem isTimestampFormat_formatTimestamp (t : GoTime) :
    isTimestampFormat (formatTimestamp t) = true := by
  by_cases h : t.offMinutes < 0 <;>
    simp [formatTimestamp, isTimestampFormat, pad4c, pad2c, h, digitChar_mod_isDigit]

theorem mapSet_mapSet {D : Type} (m : List (String × OperStored D)) (k : String)
    (v1 v2 : OperStored D) : mapSet (mapSet m k v1) k v2 = mapSet m k v2 := by
  induction m with
  | nil => simp [mapSet]
  | cons hd tl ih =>
    obtain ⟨k', v'⟩ := hd
    by_cases h : k' = k <;> simp [mapSet, h, ih]

theorem mem_storePostAdd_trace {D : Type} (s : IStore D) (item : D)
    (tr : List (StoreEvent D)) (ev : StoreEvent D) (h : ev ∈ tr) :
    ev ∈ (Server.storePostAdd s item tr).2 := by
  unfold Server.storePostAdd
  rcases s.add item with e | info <;> simp [h]

theorem mem_storePostVal_trace {D : Type} (s : IStore D) (item : D)
    (tr : List (StoreEvent D)) (ev : StoreEvent D) (h : ev ∈ tr) :
    ev ∈ (Server.storePostVal s item tr).2 := by
  unfold Server.storePostVal
  rcases hg : s.validateVal with _ | g
  · simp only [hg]
    exact mem_storePostAdd_trace s item tr ev h
  · simp only [hg]
    rcases hgi : g item with _ | e
    · simp only [hgi]
      exact mem_storePostAdd_trace s item _ ev (by simp [h])
    · simp [hgi, h]

/-- A concrete envelope used by the concrete stores below. -/
def infoW : ItemInfo :=
  { id := "id1", userID := "u7", timestamp := ⟨2024, 1, 2, 3, 4, 5, 0⟩, rev := 1 }

/-- Concrete request shape of an operation whose `Process` method has one
input and three outputs: exactly what `Server.WithOper` never rejects. -/
def reqTypeC1 : GoType Nat :=
  { name := "ThreeOutReq"
    userTypeErr := none
    decode := fun b => if b = "7" then Except.ok 7 else Except.error "bad JSON"
    validatePtr := none
    validateVal := none }

/-- A concrete operation whose `Process` has the required single input
(`NumIn() == 2` with the receiver) but three outputs instead of two. -/
def operC1 : IOper Nat :=
  { typeName := "crud_test.ThreeOutputs"
    hasProcess := true
    numIn := 2
    requestType := reqTypeC1
    processCall := fun n => [GoVal.datav (toString n), GoVal.datav "x", GoVal.nilv] }

/-- The registry record `WithOper` builds for `operC1`. -/
def storedC1 : OperStored Nat :=
  ⟨operC1.typeName, operC1.processCall, operC1.requestType⟩

/-- The server state after registering `operC1`. -/
def serverC1 : Server Nat :=
  { stores := [], opers := [("/three", storedC1)] }

/-- C1: the claim says registration of an operation whose `Process` has one
input but a number of outputs different from two fails fatally at
registration time.  The code checks only `NumIn` (and the request type),
never `NumOut`: an operation with one input and three outputs registers
without a panic.  This contradicts the registration panic message itself,
which promises the full prototype `Process(request)->(response,error)`. -/
theorem withOper_accepts_wrong_output_arity :
    Server.New.WithOper "/three" operC1 = Except.ok serverC1 ∧
      (operC1.processCall 0).length = 3 :=
  ⟨rfl, rfl⟩

/-- C10: registering a second operation under an already-registered path
silently replaces the earlier binding — chaining `WithOper path op1` then
`WithOper path op2` yields exactly the bindings of `WithOper path op2`
alone — whereas `With` always appends both stores. -/
theorem withOper_replaces_with_appends {D : Type} (server : Server D) (path : String)
    (op1 op2 : IOper D) (s1 s2 : IStore D) (h1 : validOper op1) (h2 : validOper op2) :
    (Server.WithOper server path op1).bind (fun sv => Server.WithOper sv path op2) =
      Server.WithOper server path op2 ∧
    ((server.With s1).With s2).stores = server.stores ++ [s1, s2] := by
  obtain ⟨ha1, hb1, hc1⟩ := h1
  obtain ⟨ha2, hb2, hc2⟩ := h2
  constructor
  · simp [Server.WithOper, ha1, hb1, hc1, ha2, hb2, hc2, Except.bind, mapSet_mapSet]
  · simp [Server.With]

/-- A plain concrete store: no validation capability on either form. -/
def storeW : IStore Nat :=
  { name := "items"
    decode := fun b =>
      if b = "7" then Except.ok 7
      else if b = "1" then Except.ok 1
      else if b = "0" then Except.ok 0
      else Except.error "bad JSON"
    validatePtr := none
    validateVal := none
    add := fun _ => Except.ok infoW
    get := fun i => if i = "id1" then Except.ok (7, infoW) else Except.error "not found"
    marshalItem := fun n => toString n }

/-- A second plain concrete store under another name. -/
def storeW2 : IStore Nat :=
  { storeW with name := "users" }

/-- A concrete operation passing every registration check. -/
def operA : IOper Nat :=
  { typeName := "main.OpA"
    hasProcess := true
    numIn := 2
    requestType := reqTypeC1
    processCall := fun n => [GoVal.datav (toString n), GoVal.nilv] }

/-- A second concrete operation passing every registration check. -/
def operB : IOper Nat :=
  { operA with typeName := "main.OpB" }

/-- C10 witness: the replacement law and the append law at concrete
operations and stores. -/
theorem withOper_replaces_with_appends_witness :
    validOper operA ∧ validOper operB ∧
      ((Server.New.WithOper "/p" operA).bind (fun sv => Server.WithOper sv "/p" operB) =
          Server.New.WithOper "/p" operB ∧
        ((Server.New.With storeW).With storeW2).stores =
          Server.New.stores ++ [storeW, storeW2]) :=
  ⟨⟨rfl, rfl, rfl⟩, ⟨rfl, rfl, rfl⟩,
    withOper_replaces_with_appends Server.New "/p" operA operB storeW storeW2
      ⟨rfl, rfl, rfl⟩ ⟨rfl, rfl, rfl⟩⟩

/-- C2: in the create flow `Server.storePost`, once the body has decoded,
the validation capability is probed on the pointer form first: when
present it is invoked (its event is always in the trace) and a failure
short-circuits the request as a 400 with nothing else invoked; the value
form is probed next (when the pointer form did not reject) with the same
invoked-and-short-circuit behaviour. -/
theorem storePost_double_validation {D : Type} (server : Server D) (s : IStore D)
    (req : Request) (item : D)
    (hpath : req.path = "/" ++ s.name)
    (hdec : s.decode req.body = Except.ok item) :
    (∀ f, s.validatePtr = some f →
      StoreEvent.validatePtr item ∈ (Server.storePost server s req).2 ∧
      ∀ e, f item = some e →
        Server.storePost server s req =
          (httpError (errWrap ("invalid " ++ s.name) e) 400,
           [StoreEvent.validatePtr item])) ∧
    (∀ g, s.validateVal = some g → checkOpt s.validatePtr item = none →
      StoreEvent.validateVal item ∈ (Server.storePost server s req).2 ∧
      ∀ e, g item = some e →
        Server.storePost server s req =
          (httpError (errWrap ("invalid " ++ s.name) e) 400,
           ptrProbeTrace s item ++ [StoreEvent.validateVal item])) := by
  have hp : ¬(req.path ≠ "/" ++ s.name) := by simp [hpath]
  constructor
  · intro f hf
    rcases hfi : f item with _ | e0
    · constructor
      · simp only [Server.storePost, if_neg hp, hdec, hf, hfi]
        exact mem_storePostVal_trace s item _ _ (by simp)
      · intro e he
        exact absurd he (by simp)
    · constructor
      · simp [Server.storePost, if_neg hp, hdec, hf, hfi]
      · intro e he
        obtain rfl : e0 = e := by injection he
        simp [Server.storePost, if_neg hp, hdec, hf, hfi]
  · intro g hg hptr
    rcases hfp : s.validatePtr with _ | f
    · have htr : Server.storePost server s req = Server.storePostVal s item [] := by
        simp [Server.storePost, if_neg hp, hdec, hfp]
      rcases hgi : g item with _ | e0
      · constructor
        · rw [htr]
          unfold Server.storePostVal
          simp only [hg, hgi]
          exact mem_storePostAdd_trace s item _ _ (by simp)
        · intro e he
          exact absurd he (by simp)
      · constructor
        · rw [htr]
          unfold Server.storePostVal
          simp [hg, hgi]
        · intro e he
          obtain rfl : e0 = e := by injection he
          rw [htr]
          unfold Server.storePostVal
          simp [hg, hgi, ptrProbeTrace, hfp]
    · have hfi : f item = none := by
        have h2 := hptr
        rw [hfp] at h2
        exact h2
      have htr : Server.storePost server s req =
          Server.storePostVal s item [StoreEvent.validatePtr item] := by
        simp [Server.storePost, if_neg hp, hdec, hfp, hfi]
      rcases hgi : g item with _ | e0
      · constructor
        · rw [htr]
          unfold Server.storePostVal
          simp only [hg, hgi]
          exact mem_storePostAdd_trace s item _ _ (by simp)
        · intro e he
          exact absurd he (by simp)
      · constructor
        · rw [htr]
          unfold Server.storePostVal
          simp [hg, hgi]
        · intro e he
          obtain rfl : e0 = e := by injection he
          rw [htr]
          unfold Server.storePostVal
          simp [hg, hgi, ptrProbeTrace, hfp]

/-- A store whose decoded items always fail the value-form validation
capability. -/
def storeC3 : IStore Nat :=
  { storeW with validateVal := some fun _ => some "always bad" }

/-- The concrete create request used by several witnesses. -/
def reqW7 : Request :=
  { method := "POST", path := "/items", body := "7" }

/-- C2 witness inputs: a store exposing the capability on both forms,
with the pointer form rejecting item 0 and the value form rejecting
item 1. -/
def storeC2 : IStore Nat :=
  { storeW with
    validatePtr := some fun n => if n = 0 then some "zero" else none
    validateVal := some fun n => if n = 1 then some "one" else none }

/-- The create request decoding to item 1 on `storeC2`-like stores. -/
def reqW1 : Request :=
  { method := "POST", path := "/items", body := "1" }

/-- C2 witness: on a store with both capability forms present and the
value form rejecting the decoded item 1, the pointer form is invoked
first, the value form is invoked next, and the failing value-form
invocation short-circuits as a 400. -/
theorem storePost_double_validation_witness :
    StoreEvent.validateVal 1 ∈ (Server.storePost Server.New storeC2 reqW1).2 ∧
      Server.storePost Server.New storeC2 reqW1 =
        (httpError (errWrap ("invalid " ++ storeC2.name) "one") 400,
         ptrProbeTrace storeC2 1 ++ [StoreEvent.validateVal 1]) := by
  have h := (storePost_double_validation Server.New storeC2 reqW1 1 rfl rfl).2
    (fun n => if n = 1 then some "one" else none) rfl rfl
  exact ⟨h.1, h.2 "one" rfl⟩

/-- C3: for a registered store, a POST to the exact store path whose body
decodes but whose decoded item fails a validation capability (on either
form) is answered with 400, and the storage collaborator's `add` is never
invoked. -/
theorem storePost_validation_failure_no_add {D : Type} (server : Server D)
    (s : IStore D) (req : Request) (item : D)
    (hreg : s ∈ server.stores)
    (hmethod : req.method = "POST")
    (hpath : req.path = "/" ++ s.name)
    (hdec : s.decode req.body = Except.ok item)
    (hfail : checkOpt s.validatePtr item ≠ none ∨ checkOpt s.validateVal item ≠ none) :
    (Server.storeHandler server s req).1.status = 400 ∧
      ∀ i, StoreEvent.add i ∉ (Server.storeHandler server s req).2 := by
  have hh : Server.storeHandler server s req = Server.storePost server s req := by
    simp [Server.storeHandler, hmethod]
  have hp : ¬(req.path ≠ "/" ++ s.name) := by simp [hpath]
  rw [hh]
  rcases hfp : s.validatePtr with _ | f
  · have hval : checkOpt s.validateVal item ≠ none := by
      rcases hfail with h | h
      · rw [hfp] at h
        exact absurd rfl h
      · exact h
    rcases hgv : s.validateVal with _ | g
    · rw [hgv] at hval
      exact absurd rfl hval
    · rcases hgi : g item with _ | e
      · rw [hgv] at hval
        exact absurd hgi hval
      · have hres : Server.storePost server s req =
            (httpError (errWrap ("invalid " ++ s.name) e) 400,
             [StoreEvent.validateVal item]) := by
          simp only [Server.storePost, if_neg hp, hdec, hfp]
          unfold Server.storePostVal
          simp [hgv, hgi]
        rw [hres]
        exact ⟨rfl, by simp⟩
  · rcases hfi : f item with _ | e
    · have hval : checkOpt s.validateVal item ≠ none := by
        rcases hfail with h | h
        · rw [hfp] at h
          exact absurd hfi h
        · exact h
      rcases hgv : s.validateVal with _ | g
      · rw [hgv] at hval
        exact absurd rfl hval
      · rcases hgi : g item with _ | e
        · rw [hgv] at hval
          exact absurd hgi hval
        · have hres : Server.storePost server s req =
              (httpError (errWrap ("invalid " ++ s.name) e) 400,
               [StoreEvent.validatePtr item, StoreEvent.validateVal item]) := by
            simp only [Server.storePost, if_neg hp, hdec, hfp, hfi]
            unfold Server.storePostVal
            simp [hgv, hgi]
          rw [hres]
          exact ⟨rfl, by simp⟩
    · have hres : Server.storePost server s req =
          (httpError (errWrap ("invalid " ++ s.name) e) 400,
           [StoreEvent.validatePtr item]) := by
        simp [Server.storePost, if_neg hp, hdec, hfp, hfi]
      rw [hres]
      exact ⟨rfl, by simp⟩

/-- C3 witness: a store whose value-form validation rejects everything,
with the decoded item 7 — the response is 400 and no `add` call happens. -/
theorem storePost_validation_failure_no_add_witness :
    ((Server.New.With storeC3).storeHandler storeC3 reqW7).1.status = 400 ∧
      ∀ i, StoreEvent.add i ∉ ((Server.New.With storeC3).storeHandler storeC3 reqW7).2 :=
  storePost_validation_failure_no_add (Server.New.With storeC3) storeC3 reqW7 7
    (by simp [Server.With, Server.New]) rfl rfl rfl
    (Or.inr fun h => Option.noConfusion h)

/-- C5: for a registered store, a POST to the exact store path whose body
decodes and passes both validation probes, and whose `Add` succeeds,
yields a 200 whose body is the JSON-encoded envelope, mirrors identifier,
owning-user identifier, formatted timestamp and revision into the
`Item-ID` / `Item-User-ID` / `Item-Timestamp` / `Item-Revision` headers,
and formats the timestamp header as `YYYY-MM-DD HH:MM:SS±ZZZZ` with a
numeric UTC offset. -/
theorem storePost_success_envelope {D : Type} (server : Server D) (s : IStore D)
    (req : Request) (item : D) (info : ItemInfo)
    (hreg : s ∈ server.stores)
    (hmethod : req.method = "POST")
    (hpath : req.path = "/" ++ s.name)
    (hdec : s.decode req.body = Except.ok item)
    (hv1 : checkOpt s.validatePtr item = none)
    (hv2 : checkOpt s.validateVal item = none)
    (hadd : s.add item = Except.ok info)
    (hts : info.timestamp.inRange) :
    (Server.storeHandler server s req).1.status = 200 ∧
      (Server.storeHandler server s req).1.body = marshalInfo info ∧
      headerGet (Server.storeHandler server s req).1 "Item-ID" = some info.id ∧
      headerGet (Server.storeHandler server s req).1 "Item-User-ID" = some info.userID ∧
      headerGet (Server.storeHandler server s req).1 "Item-Timestamp" =
        some (formatTimestamp info.timestamp) ∧
      headerGet (Server.storeHandler server s req).1 "Item-Revision" =
        some (toString info.rev) ∧
      isTimestampFormat (formatTimestamp info.timestamp) = true := by
  have hp : ¬(req.path ≠ "/" ++ s.name) := by simp [hpath]
  have hres : (Server.storeHandler server s req).1 = postSuccess info := by
    have hh : Server.storeHandler server s req = Server.storePost server s req := by
      simp [Server.storeHandler, hmethod]
    rw [hh]
    have hadd' : Server.storePostAdd s item = fun tr => (postSuccess info, tr ++ [StoreEvent.add item]) := by
      funext tr
      unfold Server.storePostAdd
      rw [hadd]
    have hval : ∀ tr, (Server.storePostVal s item tr).1 = postSuccess info := by
      intro tr
      rcases hgv : s.validateVal with _ | g
      · unfold Server.storePostVal
        simp [hgv, hadd']
      · have hgi : g item = none := by
          rw [hgv] at hv2
          exact hv2
        unfold Server.storePostVal
        simp [hgv, hgi, hadd']
    rcases hfp : s.validatePtr with _ | f
    · simp only [Server.storePost, if_neg hp, hdec, hfp]
      exact hval []
    · have hfi : f item = none := by
        rw [hfp] at hv1
        exact hv1
      simp only [Server.storePost, if_neg hp, hdec, hfp, hfi]
      exact hval [StoreEvent.validatePtr item]
  rw [hres]
  exact ⟨rfl, rfl, rfl, rfl, rfl, rfl, isTimestampFormat_formatTimestamp _⟩

/-- C5 witness: on the plain store, POSTing the body decoding to item 7
produces the 200 envelope response with the four mirrored headers and a
well-formatted timestamp. -/
theorem storePost_success_envelope_witness :
    ((Server.New.With storeW).storeHandler storeW reqW7).1.status = 200 ∧
      ((Server.New.With storeW).storeHandler storeW reqW7).1.body = marshalInfo infoW ∧
      headerGet ((Server.New.With storeW).storeHandler storeW reqW7).1 "Item-ID" =
        some infoW.id ∧
      headerGet ((Server.New.With storeW).storeHandler storeW reqW7).1 "Item-User-ID" =
        some infoW.userID ∧
      headerGet ((Server.New.With storeW).storeHandler storeW reqW7).1 "Item-Timestamp" =
        some (formatTimestamp infoW.timestamp) ∧
      headerGet ((Server.New.With storeW).storeHandler storeW reqW7).1 "Item-Revision" =
        some (toString infoW.rev) ∧
      isTimestampFormat (formatTimestamp infoW.timestamp) = true :=
  storePost_success_envelope (Server.New.With storeW) storeW reqW7 7 infoW
    (by simp [Server.With, Server.New]) rfl rfl rfl rfl rfl rfl (by decide)

/-- C8: for a registered store, a request with any method other than POST
and GET (PUT and DELETE in particular), to the exact store path or to any
sub-path, is answered 405 with the fixed message enumerating the four CRUD
verbs, and no collaborator is invoked. -/
theorem storeHandler_other_method_405 {D : Type} (server : Server D) (s : IStore D)
    (req : Request)
    (hreg : s ∈ server.stores)
    (hpath : req.path = "/" ++ s.name ∨ ∃ rest, req.path = "/" ++ s.name ++ "/" ++ rest)
    (hm1 : req.method ≠ "POST")
    (hm2 : req.method ≠ "GET") :
    Server.storeHandler server s req =
      (httpError "CRUD: Create with POST, Read with GET, Update with PUT, Delete with DELETE." 405,
       []) := by
  simp [Server.storeHandler, hm1, hm2]

/-- C8 witness: a PUT to the exact path of the registered plain store. -/
theorem storeHandler_other_method_405_witness :
    (Server.New.With storeW).storeHandler storeW { method := "PUT", path := "/items", body := "" } =
      (httpError "CRUD: Create with POST, Read with GET, Update with PUT, Delete with DELETE." 405,
       []) :=
  storeHandler_other_method_405 (Server.New.With storeW) storeW
    { method := "PUT", path := "/items", body := "" }
    (by simp [Server.With, Server.New]) (Or.inl rfl)
    (by decide) (by decide)

/-- C4: the read flow answers 404 with the message
`Expecting GET /<name>/<id>` exactly when the path does not split (SplitN
on `/`, limit 4) into exactly three segments with a non-empty id segment,
or when the storage collaborator's `get` on that id fails — so malformed
paths, not-found and backend errors produce the same message and are
indistinguishable to the caller. -/
theorem storeGet_404_iff {D : Type} (server : Server D) (s : IStore D) (req : Request) :
    (Server.storeGet server s req).1 =
        httpError ("Expecting GET /" ++ s.name ++ "/<id>") 404 ↔
      storeGetFails s req.path := by
  unfold Server.storeGet storeGetFails readPathId
  rcases hp : (goSplitN '/' req.path.data 4).map String.mk with _ | ⟨a, _ | ⟨b, _ | ⟨c, _ | ⟨d, rest⟩⟩⟩⟩
  · simp
  · simp
  · simp
  · by_cases hc : c.length = 0
    · simp [hc]
    · rcases hg : s.get c with e | ⟨v, info⟩
      · simp [hc, hg]
      · simp only [hc, hg]
        constructor
        · intro h
          have h2 := congrArg HttpResponse.status h
          simp [httpError] at h2
        · intro h
          exfalso
          rcases h with ⟨e, he⟩
          rw [he] at hg
          exact Except.noConfusion hg
  · simp

theorem operPostCall_trace {D : Type} (o : OperStored D) (rd : D)
    (tr : List (OperEvent D)) :
    (Server.operPostCall o rd tr).2 = tr ++ [OperEvent.process rd] := by
  unfold Server.operPostCall
  rcases hout : o.processCall rd with _ | ⟨x, _ | ⟨y, _ | ⟨z, zs⟩⟩⟩
  · simp
  · simp
  · rcases y with _ | m | j <;> simp
  · simp

theorem operPost_reduces {D : Type} (o : OperStored D) (req : Request) (rd : D)
    (hdec : o.requestType.decode req.body = Except.ok rd)
    (hv1 : checkOpt o.requestType.validatePtr rd = none)
    (hv2 : checkOpt o.requestType.validateVal rd = none) :
    ∃ tr, Server.operPost o req = Server.operPostCall o rd tr ∧ countProcess tr = 0 := by
  have hval : ∀ tr, ∃ tr2, Server.operPostVal o rd tr = Server.operPostCall o rd tr2 ∧
      countProcess tr2 = countProcess tr := by
    intro tr
    rcases hgv : o.requestType.validateVal with _ | g
    · refine ⟨tr, ?_, rfl⟩
      unfold Server.operPostVal
      simp [hgv]
    · have hgi : g rd = none := by
        rw [hgv] at hv2
        exact hv2
      refine ⟨tr ++ [OperEvent.validateVal rd], ?_, ?_⟩
      · unfold Server.operPostVal
        simp [hgv, hgi]
      · simp [countProcess]
  rcases hfp : o.requestType.validatePtr with _ | f
  · obtain ⟨tr2, h2, hc⟩ := hval []
    refine ⟨tr2, ?_, by simpa [countProcess] using hc⟩
    simp only [Server.operPost, hdec, hfp]
    exact h2
  · have hfi : f rd = none := by
      rw [hfp] at hv1
      exact hv1
    obtain ⟨tr2, h2, hc⟩ := hval [OperEvent.validatePtr rd]
    refine ⟨tr2, ?_, by simpa [countProcess] using hc⟩
    simp only [Server.operPost, hdec, hfp, hfi]
    exact h2

/-- C6: for a registered operation, a POST to its path whose body decodes
into the declared request shape and passes both validation probes invokes
the `Process` capability exactly once; a nil failure output yields 200
with the JSON-encoded response value as body, a non-nil failure output
yields 400 with the wrapped error. -/
theorem operPost_invokes_once {D : Type} (server : Server D) (path : String)
    (o : OperStored D) (req : Request) (rd : D)
    (hreg : lookupOper server path = some o)
    (hpath : req.path = path)
    (hmethod : req.method = "POST")
    (hdec : o.requestType.decode req.body = Except.ok rd)
    (hv1 : checkOpt o.requestType.validatePtr rd = none)
    (hv2 : checkOpt o.requestType.validateVal rd = none) :
    countProcess (Server.operHandler o req).2 = 1 ∧
      (∀ v, o.processCall rd = [v, GoVal.nilv] →
        (Server.operHandler o req).1 = HandlerResult.response
          { status := 200, headers := [("Content-Type", "application/json")],
            body := goValJson v }) ∧
      (∀ v m, o.processCall rd = [v, GoVal.errv m] →
        (Server.operHandler o req).1 = HandlerResult.response
          (httpError ("failed: " ++ m) 400)) := by
  have hh : Server.operHandler o req = Server.operPost o req := by
    simp [Server.operHandler, hmethod]
  obtain ⟨tr, htr, hc0⟩ := operPost_reduces o req rd hdec hv1 hv2
  rw [hh, htr]
  refine ⟨?_, ?_, ?_⟩
  · simp only [countProcess] at hc0
    rw [operPostCall_trace]
    simp only [countProcess, List.countP_append, hc0]
    simp [List.countP_cons]
  · intro v hv
    unfold Server.operPostCall
    simp [hv]
  · intro v m hv
    unfold Server.operPostCall
    simp [hv]

/-- Request shape of the concrete one-input operation used by the
operation-dispatch witnesses. -/
def reqTypeOp : GoType Nat :=
  { name := "OpReq"
    userTypeErr := none
    decode := fun b => if b = "7" then Except.ok 7 else Except.error "bad JSON"
    validatePtr := none
    validateVal := none }

/-- A registered well-behaved operation: one input, two outputs, nil
failure. -/
def okOper : OperStored Nat :=
  { typeName := "main.OkOper"
    processCall := fun n => [GoVal.datav (toString n), GoVal.nilv]
    requestType := reqTypeOp }

/-- A server with `okOper` registered under `/op`. -/
def srvOk : Server Nat :=
  { stores := [], opers := [("/op", okOper)] }

/-- The POST invoking `okOper`. -/
def reqOp7 : Request :=
  { method := "POST", path := "/op", body := "7" }

/-- C6 witness: the registered `okOper` is invoked exactly once on the
decoded request 7 and answers 200 with the JSON-encoded response value. -/
theorem operPost_invokes_once_witness :
    countProcess (Server.operHandler okOper reqOp7).2 = 1 ∧
      (Server.operHandler okOper reqOp7).1 = HandlerResult.response
        { status := 200, headers := [("Content-Type", "application/json")],
          body := goValJson (GoVal.datav "7") } := by
  have h := operPost_invokes_once srvOk "/op" okOper reqOp7 7 rfl rfl rfl rfl rfl rfl
  exact ⟨h.1, h.2.1 (GoVal.datav "7") rfl⟩

/-- Request shape of the concrete three-output operation. -/
def reqTypeC7 : GoType Nat :=
  { name := "ThreeReq"
    userTypeErr := none
    decode := fun b => if b = "7" then Except.ok 7 else Except.error "bad JSON"
    validatePtr := none
    validateVal := none }

/-- A concrete operation whose `Process` has one input (so `NumIn() == 2`
with the receiver) but three outputs. -/
def operC7 : IOper Nat :=
  { typeName := "main.ThreeOper"
    hasProcess := true
    numIn := 2
    requestType := reqTypeC7
    processCall := fun n => [GoVal.datav (toString n), GoVal.datav "x", GoVal.nilv] }

/-- The registry record `WithOper` builds for `operC7`. -/
def storedC7 : OperStored Nat :=
  ⟨operC7.typeName, operC7.processCall, operC7.requestType⟩

/-- The server state after registering `operC7`. -/
def serverC7 : Server Nat :=
  { stores := [], opers := [("/three", storedC7)] }

/-- The POST invoking the three-output operation. -/
def reqC7 : Request :=
  { method := "POST", path := "/three", body := "7" }

/-- C7 counterexample: registration validation succeeds on the three-output
operation (so the precondition of the claim's unreachability assertion
holds), yet invoking it drives the dispatcher into the arity-mismatch
branch and the response is 500 — the branch is reachable. -/
theorem operPost_500_after_valid_registration :
    Server.New.WithOper "/three" operC7 = Except.ok serverC7 ∧
      lookupOper serverC7 "/three" = some storedC7 ∧
      (Server.operHandler storedC7 reqC7).1 = HandlerResult.response
        (httpError "main.ThreeOper.Process() returned 3 instead of 2 values" 500) :=
  ⟨rfl, rfl, rfl⟩

/-- C7 (amended): when the invoked `Process` capability returns a number
of values different from two, the dispatcher responds 500 naming the
actual count; but since registration validation never inspects the output
arity, this branch is reachable even after a successful registration —
witnessed by the registered three-output operation. -/
theorem operPost_arity_mismatch_500 {D : Type} (o : OperStored D) (req : Request)
    (rd : D)
    (hdec : o.requestType.decode req.body = Except.ok rd)
    (hv1 : checkOpt o.requestType.validatePtr rd = none)
    (hv2 : checkOpt o.requestType.validateVal rd = none)
    (hlen : (o.processCall rd).length ≠ 2) :
    (Server.operPost o req).1 = HandlerResult.response
      (httpError (o.typeName ++ ".Process() returned " ++
        toString (o.processCall rd).length ++ " instead of 2 values") 500) ∧
    (Server.New.WithOper "/three" operC7 = Except.ok serverC7 ∧
      (Server.operHandler storedC7 reqC7).1 = HandlerResult.response
        (httpError "main.ThreeOper.Process() returned 3 instead of 2 values" 500)) := by
  refine ⟨?_, rfl, rfl⟩
  obtain ⟨tr, htr, _⟩ := operPost_reduces o req rd hdec hv1 hv2
  rw [htr]
  unfold Server.operPostCall
  rcases hout : o.processCall rd with _ | ⟨x, _ | ⟨y, _ | ⟨z, zs⟩⟩⟩
  · simp [hout]
  · simp [hout]
  · exact absurd (by simp [hout]) hlen
  · simp [hout]

/-- C7 witness: the amended statement at the registered three-output
operation and its request. -/
theorem operPost_arity_mismatch_500_witness :
    (Server.operPost storedC7 reqC7).1 = HandlerResult.response
      (httpError (storedC7.typeName ++ ".Process() returned " ++
        toString (storedC7.processCall 7).length ++ " instead of 2 values") 500) ∧
    (Server.New.WithOper "/three" operC7 = Except.ok serverC7 ∧
      (Server.operHandler storedC7 reqC7).1 = HandlerResult.response
        (httpError "main.ThreeOper.Process() returned 3 instead of 2 values" 500)) :=
  operPost_arity_mismatch_500 storedC7 reqC7 7 rfl rfl rfl (by decide)

/-- A store exposing the validation capability only on the pointer form
(in Go: `Validate` declared with a pointer receiver), and rejecting every
item. -/
def storePtrOnly : IStore Nat :=
  { storeW with name := "x", validatePtr := some fun _ => some "boom" }

/-- The create request for `storePtrOnly`. -/
def reqX : Request :=
  { method := "POST", path := "/x", body := "7" }

/-- C9 counterexample: on a store whose capability is exposed only through
the pointer form, `Server.storePost` rejects with 400 and never calls the
storage collaborator, while `Crud.post` on the same store and request
answers 200 and calls `add` — the two create flows are not equivalent. -/
theorem storePost_crudPost_differ :
    (Server.storePost Server.New storePtrOnly reqX).1.status = 400 ∧
      storageCalls (Server.storePost Server.New storePtrOnly reqX).2 = [] ∧
      (Crud.post Crud.New storePtrOnly reqX).1.status = 200 ∧
      storageCalls (Crud.post Crud.New storePtrOnly reqX).2 = [StoreEvent.add 7] :=
  ⟨rfl, rfl, rfl, rfl⟩

theorem crudPostAdd_eq_storePostAdd {D : Type} :
    @Crud.postAdd D = @Server.storePostAdd D := by
  funext s item tr
  unfold Crud.postAdd Server.storePostAdd
  rcases s.add item with e | info <;> rfl

theorem storePostVal_shift {D : Type} (s : IStore D) (item : D)
    (tr : List (StoreEvent D)) :
    (Server.storePostVal s item tr).1 = (Server.storePostVal s item []).1 ∧
    (Server.storePostVal s item tr).2 = tr ++ (Server.storePostVal s item []).2 := by
  unfold Server.storePostVal Server.storePostAdd
  rcases hgv : s.validateVal with _ | g
  · rcases hadd : s.add item with e | info <;> simp [hadd]
  · rcases hgi : g item with _ | e
    · rcases hadd : s.add item with e2 | info <;> simp [hgi, hadd]
    · simp [hgi]

/-- C9 (amended): the two create flows are equivalent — same response and
same storage-collaborator calls — for every request whose decoded item the
pointer-form validation does not reject; when the pointer-form capability
rejects (a pointer-receiver `Validate` failing), `Server.storePost`
answers 400 without calling `add` while `Crud.post` proceeds, so the flows
differ exactly there. -/
theorem storePost_crudPost_agree {D : Type} (server : Server D) (c : Crud D)
    (s : IStore D) (req : Request)
    (h : ∀ item, s.decode req.body = Except.ok item →
      checkOpt s.validatePtr item = none) :
    (Server.storePost server s req).1 = (Crud.post c s req).1 ∧
      storageCalls (Server.storePost server s req).2 =
        storageCalls (Crud.post c s req).2 := by
  by_cases hp : req.path = "/" ++ s.name
  · have hp' : ¬(req.path ≠ "/" ++ s.name) := by simp [hp]
    rcases hdec : s.decode req.body with e | item
    · constructor <;> simp [Server.storePost, Crud.post, if_neg hp', hdec]
    · have hptr := h item hdec
      have e2 : Crud.post c s req = Server.storePostVal s item [] := by
        simp only [Crud.post, if_neg hp', hdec]
        unfold Server.storePostVal
        rcases hgv : s.validateVal with _ | g
        · simp [crudPostAdd_eq_storePostAdd]
        · rcases hgi : g item with _ | e <;>
            simp [hgi, crudPostAdd_eq_storePostAdd]
      rcases hfp : s.validatePtr with _ | f
      · have e1 : Server.storePost server s req = Server.storePostVal s item [] := by
          simp [Server.storePost, if_neg hp', hdec, hfp]
        rw [e1, e2]
        exact ⟨rfl, rfl⟩
      · have hfi : f item = none := by
          rw [hfp] at hptr
          exact hptr
        have e1 : Server.storePost server s req =
            Server.storePostVal s item [StoreEvent.validatePtr item] := by
          simp [Server.storePost, if_neg hp', hdec, hfp, hfi]
        obtain ⟨g1, g2⟩ := storePostVal_shift s item [StoreEvent.validatePtr item]
        rw [e1, e2]
        refine ⟨g1, ?_⟩
        rw [g2]
        simp [storageCalls]
  · have hp' : req.path ≠ "/" ++ s.name := hp
    constructor <;> simp [Server.storePost, Crud.post, if_pos hp']

/-- C9 witness: on the plain store (no pointer-form capability), both
create flows produce the same response and the same storage calls. -/
theorem storePost_crudPost_agree_witness :
    (Server.storePost Server.New storeW reqW7).1 = (Crud.post Crud.New storeW reqW7).1 ∧
      storageCalls (Server.storePost Server.New storeW reqW7).2 =
        storageCalls (Crud.post Crud.New storeW reqW7).2 :=
  storePost_crudPost_agree Server.New Crud.New storeW reqW7
    (fun item _ => rfl)
